import Mathlib

/-!
Verification of the versioned spatial overlay engine of `q_assessment_wizard`.

We shallowly embed the Python program:

* `ProjectManager.sanitize_table_name` (src/project_manager.py) as a pure
  function on `List Char`.
* The per-project SpatiaLite database as an explicit state record `Db`
  (feature tables, `geometry_columns` rows, `spatial_versions` rows).
* `SpatialEngine.overlay / rollback_to_version / load_version`
  (src/core/spatial_engine/engine.py) as state-passing functions.
* `SpatialAnalyzerLite.validate_geometry_compatibility` and the
  validation-failure path of `analyze_and_create_layer`
  (src/spatial_analysis_spatialite.py).
* `AdminManager.build_task_tree` (src/admin_manager.py) as a fold over the
  flat task list.
* The Python attribute-lookup and call-binding discipline needed to settle
  the two wiring claims about `SpatialRepository` delegation and
  `OperationRunner` call sites.

The version-bookkeeping methods that `SpatialRepository` delegates to
(`get_versions`, `get_current_version`, `get_version_by_id`,
`create_version`, `set_current_version`, `rename_table`) do not exist on
`ProjectManager` in the repository; where the versioning protocol needs
them they are modelled from the spec (each such definition carries a
doc comment starting with `Modelled from the spec:`).
-/

/-! ## Character classes of `sanitize_table_name`

`re.sub(r'[^a-zA-Z0-9_]', '_', name)` keeps exactly the ASCII characters
`a`-`z` (97-122), `A`-`Z` (65-90), `0`-`9` (48-57) and `_` (95); every
other character is replaced by `_`.  We express the classes through
`Char.toNat` so that arithmetic automation applies.
-/

/-- The character class `[a-zA-Z0-9_]` of the sanitizer's first rewrite. -/
def IsWordChar (c : Char) : Prop :=
  (65 ≤ c.toNat ∧ c.toNat ≤ 90) ∨ (97 ≤ c.toNat ∧ c.toNat ≤ 122) ∨
    (48 ≤ c.toNat ∧ c.toNat ≤ 57) ∨ c.toNat = 95

instance (c : Char) : Decidable (IsWordChar c) := by
  unfold IsWordChar; infer_instance

/-- The characters that can appear after lowercasing a word character:
lowercase letters, digits, underscore. -/
def IsLowerWordChar (c : Char) : Prop :=
  (97 ≤ c.toNat ∧ c.toNat ≤ 122) ∨ (48 ≤ c.toNat ∧ c.toNat ≤ 57) ∨ c.toNat = 95

instance (c : Char) : Decidable (IsLowerWordChar c) := by
  unfold IsLowerWordChar; infer_instance

/-- Python `str.isdigit` restricted to the ASCII range the sanitizer
produces: `0`-`9`. -/
def IsDigitChar (c : Char) : Prop := 48 ≤ c.toNat ∧ c.toNat ≤ 57

instance (c : Char) : Decidable (IsDigitChar c) := by
  unfold IsDigitChar; infer_instance

/-- `re.sub(r'[^a-zA-Z0-9_]', '_', s)`: replace every non-word character
by an underscore. -/
def underscoreNonWord (l : List Char) : List Char :=
  l.map (fun c => if IsWordChar c then c else '_')

/-- `str.lower()` applied character-wise (the sanitizer lowercases after
the first rewrite, so only ASCII word characters are ever lowercased). -/
def lowerAll (l : List Char) : List Char :=
  l.map Char.toLower

/-- Emit a pending run of `n` underscores, collapsing runs of three or
more to exactly two — the action of `re.sub(r'_{3,}', '__', s)` on one
maximal run. -/
def emitRun (n : Nat) : List Char :=
  if 3 ≤ n then ['_', '_'] else List.replicate n '_'

/-- Worker for `re.sub(r'_{3,}', '__', s)`: `n` counts the underscores
read but not yet emitted. -/
def collapseAux : Nat → List Char → List Char
  | n, [] => emitRun n
  | n, c :: rest =>
    if c = '_' then collapseAux (n + 1) rest
    else emitRun n ++ c :: collapseAux 0 rest

/-- `re.sub(r'_{3,}', '__', s)`: every maximal run of three or more
underscores becomes exactly two; shorter runs are kept. -/
def collapseUnderscores (l : List Char) : List Char :=
  collapseAux 0 l

/-- Drop trailing underscores (the right half of Python `strip('_')`). -/
def rstripU : List Char → List Char
  | [] => []
  | c :: rest =>
    if rstripU rest = [] then (if c = '_' then [] else [c])
    else c :: rstripU rest

/-- Python `str.strip('_')`: drop leading and trailing underscores. -/
def stripU (l : List Char) : List Char :=
  rstripU (l.dropWhile (fun c => c == '_'))

/-- The first four rewrites of `ProjectManager.sanitize_table_name`:
substitute non-word characters, lowercase, collapse `_{3,}` to `__`,
strip surrounding underscores. -/
def sanitizeStage (l : List Char) : List Char :=
  stripU (collapseUnderscores (lowerAll (underscoreNonWord l)))

/-- `ProjectManager.sanitize_table_name` (src/project_manager.py):
convert a layer name to a valid SQLite table name.  After the four
rewrites of `sanitizeStage`, a leading digit is guarded with the text
`layer_`, and an empty result becomes `unnamed_layer`. -/
def sanitize_table_name (layer_name : List Char) : List Char :=
  let s := sanitizeStage layer_name
  let s2 : List Char :=
    match s with
    | [] => []
    | c :: _ => if IsDigitChar c then ("layer_".toList ++ s) else s
  if s2 = [] then "unnamed_layer".toList else s2

/-- `SpatialRepository.sanitize_name` delegates to
`ProjectManager.sanitize_table_name`; `String` wrapper used by the
engine model. -/
def sanitize_name (s : String) : String :=
  String.mk (sanitize_table_name s.toList)

/-- `true` iff the list contains three consecutive underscores — the
pattern `_{3,}` has a match. -/
def hasTriple : List Char → Bool
  | c1 :: c2 :: c3 :: rest =>
    (c1 == '_' && c2 == '_' && c3 == '_') || hasTriple (c2 :: c3 :: rest)
  | _ => false

/-! ## Project database state

One project's SpatiaLite database, as the engine observes it: the set of
feature tables, the `geometry_columns` registry rows, and the
`spatial_versions` rows.  `next_id` models the AUTOINCREMENT counter of
`spatial_versions.id`.
-/

/-- One row of SpatiaLite's `geometry_columns` for geometry column
`geom` (src/project_manager.py queries `geometry_type, srid` keyed by
`f_table_name`). -/
structure GeomCol where
  f_table_name : String
  geometry_type : Int
  srid : Int
deriving DecidableEq, Repr

/-- One row of the `spatial_versions` table (fields per the docstrings of
src/core/spatial_engine/engine.py and the spec's SpatialVersion entity). -/
structure VersionRow where
  id : Nat
  scenario_name : String
  table_name : String
  descr : String
  parent_version_id : Option Nat
  is_current : Bool
deriving DecidableEq, Repr

/-- The mutable database state threaded through the embedded operations. -/
structure Db where
  tables : List String
  geometry_columns : List GeomCol
  versions : List VersionRow
  next_id : Nat
deriving DecidableEq, Repr

/-- `ProjectManager.table_exists` (src/project_manager.py): the table is
present in `sqlite_master`. -/
def table_exists (db : Db) (t : String) : Bool :=
  db.tables.contains t

/-- `ProjectManager.drop_table` (src/project_manager.py): drop the table
and discard its geometry registration; `DROP TABLE IF EXISTS` makes
dropping an absent table a no-op. -/
def drop_table (db : Db) (t : String) : Db :=
  { db with
    tables := db.tables.filter (fun x => x ≠ t)
    geometry_columns := db.geometry_columns.filter (fun g => g.f_table_name ≠ t) }

/-- Modelled from the spec: `rename(old, new)` of the Table Store Adapter
(§4.1) — `ProjectManager.rename_table`, which `SpatialRepository.rename_table`
delegates to, does not exist in the repository.  Atomic promotion of a
table to a new name, re-registering its geometry metadata.  (The spec's
`StoreError` when `old` is absent is not modelled: the engine only renames
a table it has just created.) -/
def rename_table (db : Db) (old new : String) : Db :=
  { db with
    tables := new :: db.tables.filter (fun x => x ≠ old)
    geometry_columns := db.geometry_columns.map (fun g =>
      if g.f_table_name = old then { g with f_table_name := new } else g) }

/-- Modelled from the spec: `ListVersions` (§4.4) — the
`ProjectManager.get_versions` that `SpatialRepository.get_versions`
delegates to does not exist in the repository.  All versions for a base
scenario name, newest first (`db.versions` is kept in creation order, so
newest-first is the reverse of the filtered list). -/
def get_versions (db : Db) (scenario : String) : List VersionRow :=
  (db.versions.filter (fun r => r.scenario_name = scenario)).reverse

/-- Modelled from the spec: look up a version by id — the
`ProjectManager.get_version_by_id` that `SpatialRepository.get_version_by_id`
delegates to does not exist in the repository. -/
def get_version_by_id (db : Db) (vid : Nat) : Option VersionRow :=
  db.versions.find? (fun r => r.id = vid)

/-- Modelled from the spec: the HEAD version for a scenario, or none —
the `ProjectManager.get_current_version` that
`SpatialRepository.get_current_version` delegates to does not exist in
the repository. -/
def get_current_version (db : Db) (scenario : String) : Option VersionRow :=
  db.versions.find? (fun r => r.scenario_name = scenario && r.is_current)

/-- Modelled from the spec: record a new version as HEAD (§4.4 step 5:
new row is current, the previous head's `is_current` flag is cleared in
the same logical step) — the `ProjectManager.create_version` that
`SpatialRepository.create_version` delegates to does not exist in the
repository.  Returns the new AUTOINCREMENT id. -/
def create_version (db : Db) (scenario table descr : String)
    (parent : Option Nat) : Db × Nat :=
  let cleared := db.versions.map
    (fun r => if r.scenario_name = scenario then { r with is_current := false } else r)
  let row : VersionRow :=
    { id := db.next_id, scenario_name := scenario, table_name := table,
      descr := descr, parent_version_id := parent, is_current := true }
  ({ db with versions := cleared ++ [row], next_id := db.next_id + 1 }, db.next_id)

/-- Modelled from the spec: move the HEAD pointer (§4.4 Rollback: set
`is_current = true` on the given version and `false` on all siblings for
that scenario name) — the `ProjectManager.set_current_version` that
`SpatialRepository.set_current_version` delegates to does not exist in
the repository. -/
def set_current_version (db : Db) (scenario : String) (vid : Nat) : Db :=
  { db with versions := db.versions.map (fun r =>
      if r.scenario_name = scenario then { r with is_current := r.id = vid } else r) }

/-! ## Spatial analyzer (src/spatial_analysis_spatialite.py) -/

/-- `ProjectManager._geometry_type_int_to_str`: decode SpatiaLite's
`geometry_columns.geometry_type` integer code. -/
def geometry_type_int_to_str (code : Int) : String :=
  if code = 1 then "POINT"
  else if code = 2 then "LINESTRING"
  else if code = 3 then "POLYGON"
  else if code = 4 then "MULTIPOINT"
  else if code = 5 then "MULTILINESTRING"
  else if code = 6 then "MULTIPOLYGON"
  else if code = 1001 then "POINTZ"
  else if code = 1002 then "LINESTRINGZ"
  else if code = 1003 then "POLYGONZ"
  else if code = 1004 then "MULTIPOINTZ"
  else if code = 1005 then "MULTILINESTRINGZ"
  else if code = 1006 then "MULTIPOLYGONZ"
  else "GEOMETRY"

/-- The polygon family accepted by
`SpatialAnalyzerLite.validate_geometry_compatibility`. -/
def polygon_types : List String :=
  ["POLYGON", "MULTIPOLYGON", "POLYGONZ", "MULTIPOLYGONZ"]

/-- Result record of `validate_geometry_compatibility` (the dict it
returns, minus the echoed type/srid fields). -/
structure CompatResult where
  compatible : Bool
  srid_compatible : Bool
  type_compatible : Bool
  message : String
deriving DecidableEq, Repr

/-- `SpatialAnalyzerLite._get_compatibility_message`: user-facing text
naming each failed check (quotes elided from the embedded strings). -/
def get_compatibility_message (sridOk typeOk : Bool)
    (targetType assessType : String) (targetSrid assessSrid : Int) : String :=
  if sridOk && typeOk then "Layers are compatible for spatial analysis"
  else
    let msgs : List String :=
      (if !sridOk then
        ["SRID mismatch: Target (" ++ toString targetSrid ++ ") vs Assessment (" ++
          toString assessSrid ++ "). Layers must have the same coordinate reference system."]
       else []) ++
      (if !typeOk then
        ["Geometry type incompatibility: Target (" ++ targetType ++ ") and/or Assessment (" ++
          assessType ++ ") are not polygon-based. Both layers must be POLYGON or MULTIPOLYGON for intersection analysis."]
       else [])
    String.intercalate " " msgs

/-- Look up the `geometry_columns` row of a table (the query
`SELECT geometry_type, srid FROM geometry_columns WHERE f_table_name = ?`). -/
def geomColOf (db : Db) (t : String) : Option GeomCol :=
  db.geometry_columns.find? (fun g => g.f_table_name = t)

/-- `SpatialAnalyzerLite.validate_geometry_compatibility`: both tables
must report the same SRID and polygon-family geometry; a table without a
registered geometry column is an error. -/
def validate_geometry_compatibility (db : Db) (target assess : String) :
    Except String CompatResult :=
  match geomColOf db target with
  | none => .error ("Geometry validation failed: No geometry column found for table " ++ target)
  | some gt =>
    match geomColOf db assess with
    | none => .error ("Geometry validation failed: No geometry column found for table " ++ assess)
    | some ga =>
      let targetType := geometry_type_int_to_str gt.geometry_type
      let assessType := geometry_type_int_to_str ga.geometry_type
      let sridOk := gt.srid = ga.srid
      let typeOk := polygon_types.contains targetType && polygon_types.contains assessType
      .ok { compatible := sridOk && typeOk,
            srid_compatible := sridOk,
            type_compatible := typeOk,
            message := get_compatibility_message sridOk typeOk targetType assessType gt.srid ga.srid }

/-- Modelled from the spec: the table-writing effect of a successful
combine (§4.2 — "writes a brand-new output table, overwriting one of the
same name if present", registered with the target table's SRID).  The
geometric contents of the rows are outside the embedding. -/
def writeOutputTable (db : Db) (out : String) (srid : Int) : Db :=
  { db with
    tables := out :: db.tables.filter (fun x => x ≠ out)
    geometry_columns :=
      { f_table_name := out, geometry_type := 6, srid := srid } ::
        db.geometry_columns.filter (fun g => g.f_table_name ≠ out) }

/-- `SpatialAnalyzerLite.analyze_and_create_layer`
(src/spatial_analysis_spatialite.py): existence checks, geometry
compatibility validation, then (only on success) drop of a pre-existing
output table and creation of the result table.  Errors are returned
together with the unchanged state — every raise happens before the first
mutation.  Returns the row count of the output table (the row count and
QGIS layer handle are outside the embedding; `0` stands for the count). -/
def analyze_and_create_layer (db : Db) (target assess out : String) :
    Db × Except String Nat :=
  if !table_exists db target then
    (db, .error ("Target table " ++ target ++ " does not exist"))
  else if !table_exists db assess then
    (db, .error ("Assessment table " ++ assess ++ " does not exist"))
  else
    match validate_geometry_compatibility db target assess with
    | .error e => (db, .error e)
    | .ok v =>
      if !v.compatible then
        (db, .error ("Geometry incompatibility: " ++ v.message))
      else
        let db1 := if table_exists db out then drop_table db out else db
        let srid := match geomColOf db target with
          | some g => g.srid
          | none => 4326
        (writeOutputTable db1 out srid, .ok 0)

/-! ## Versioned overlay engine (src/core/spatial_engine/engine.py) -/

/-- The fields of the dict returned by `SpatialEngine.overlay` that live
inside the embedding (the QGIS layer handle is display-only). -/
structure OverlayOutcome where
  table : String
  version_id : Nat
deriving DecidableEq, Repr

/-- `SpatialEngine.overlay` (src/core/spatial_engine/engine.py): sanitize
the base name, number the new version from the count of existing
versions, build the intersection and union intermediates, promote the
union table to the versioned name, drop the intermediate intersection,
and record the new version as HEAD with
`parent_id = existing_versions[0].id if existing_versions else None`.
The table-writing effect of the two combine steps is `writeOutputTable`
(the concrete `OperationRunner.execute` wiring is settled separately);
the final QGIS materialization is display-only and outside the state. -/
def overlay (db : Db) (target assess output_name : String) :
    Db × OverlayOutcome :=
  let base := sanitize_name output_name
  let existing := get_versions db base
  let version_num := existing.length + 1
  let versioned := base ++ "__v" ++ toString version_num
  let tmpIntersect := versioned ++ "_tmp_intersect"
  let tmpUnion := versioned ++ "_tmp_union"
  let srid := match geomColOf db target with
    | some g => g.srid
    | none => 4326
  let db1 := writeOutputTable db tmpIntersect srid
  let db2 := writeOutputTable db1 tmpUnion srid
  let db3 := rename_table db2 tmpUnion versioned
  let db4 := drop_table db3 tmpIntersect
  let parent : Option Nat :=
    match existing with
    | [] => none
    | r :: _ => some r.id
  let step5 := create_version db4 base versioned ("Version " ++ toString version_num) parent
  (step5.1, { table := versioned, version_id := step5.2 })

/-- `SpatialEngine.rollback_to_version` (src/core/spatial_engine/engine.py):
look the version up by id — over all scenarios — and raise `ValueError`
if absent; otherwise move the HEAD pointer of the *sanitized scenario
name* to that id.  The state is returned alongside the outcome: on the
error path no mutation precedes the raise. -/
def rollback_to_version (db : Db) (scenario_name : String) (vid : Nat) :
    Db × Except String OverlayOutcome :=
  match get_version_by_id db vid with
  | none => (db, .error ("Version " ++ toString vid ++ " not found in spatial_versions."))
  | some v =>
    let base := sanitize_name scenario_name
    let db1 := set_current_version db base vid
    (db1, .ok { table := v.table_name, version_id := vid })

/-- `SpatialEngine.load_version` (src/core/spatial_engine/engine.py):
look the version up by id, raise `ValueError` if absent, otherwise
materialize its table as a QGIS layer (display-only).  Returns the table
name that gets materialized. -/
def load_version (db : Db) (vid : Nat) : Db × Except String String :=
  match get_version_by_id db vid with
  | none => (db, .error ("Version " ++ toString vid ++ " not found in spatial_versions."))
  | some v => (db, .ok v.table_name)

/-- `CompareVersions.execute` (src/core/application/use_cases/compare_versions.py),
the engine-facing core: load both versions side by side via
`SpatialEngine.load_version`; either missing id raises `ValueError`. -/
def compare_versions (db : Db) (vidA vidB : Nat) :
    Db × Except String (String × String) :=
  let stepA := load_version db vidA
  match stepA.2 with
  | .error e => (stepA.1, .error e)
  | .ok ta =>
    let stepB := load_version stepA.1 vidB
    match stepB.2 with
    | .error e => (stepB.1, .error e)
    | .ok tb => (stepB.1, .ok (ta, tb))

/-! ## Python call binding (src/core/spatial_engine/operations.py)

`OperationRunner.execute` invokes
`SpatialAnalyzerLite.analyze_and_create_layer(target, assessment, output,
operation_type=..., add_to_qgis=False)` although the method signature is
`(self, target_table, assessment_table, output_table, layer_name=None,
operation_type=OperationType.BOTH)`; `OperationRunner.create_qgis_layer`
invokes `SpatialAnalyzerLite._create_qgis_layer(table_name, layer_name,
group_name)` although the signature is `(self, table_name,
layer_name=None)`.  We model the fragment of CPython argument binding
that decides those calls: positional arity and unknown-keyword checks,
performed before the callee body runs.
-/

/-- `OverlayOperation` (src/core/spatial_engine/operations.py). -/
inductive OverlayOperation where
  | INTERSECT
  | UNION
  | BOTH
deriving DecidableEq, Repr

/-- CPython call binding, restricted to the two checks that decide the
claims: a call with more positional arguments than parameters, or with a
keyword that names no parameter, raises `TypeError` before the callee
body executes. -/
def checkCall (params : List String) (npos : Nat) (kwargs : List String) :
    Except String Unit :=
  if params.length < npos then
    .error "TypeError: too many positional arguments"
  else if kwargs.any (fun k => !params.contains k) then
    .error "TypeError: unexpected keyword argument"
  else
    .ok ()

/-- The parameters of `SpatialAnalyzerLite.analyze_and_create_layer`
(src/spatial_analysis_spatialite.py line 35), `self` excluded. -/
def analyzeAndCreateLayerParams : List String :=
  ["target_table", "assessment_table", "output_table", "layer_name", "operation_type"]

/-- The parameters of `SpatialAnalyzerLite._create_qgis_layer`
(src/spatial_analysis_spatialite.py line 142), `self` excluded. -/
def createQgisLayerParams : List String :=
  ["table_name", "layer_name"]

/-- `OperationRunner.execute` (src/core/spatial_engine/operations.py):
bind and run `analyze_and_create_layer(target_table, assessment_table,
output_table, operation_type=..., add_to_qgis=False)`.  If binding
succeeds the analyzer body runs; a binding failure raises `TypeError`
with no database effect. -/
def operationRunner_execute (db : Db) (target assess out : String)
    (op : OverlayOperation) : Db × Except String Nat :=
  match checkCall analyzeAndCreateLayerParams 3 ["operation_type", "add_to_qgis"] with
  | .error e => (db, .error e)
  | .ok _ => analyze_and_create_layer db target assess out

/-- `OperationRunner.create_qgis_layer` (src/core/spatial_engine/operations.py):
bind and run `_create_qgis_layer(table_name, layer_name, group_name)` —
three positional arguments.  Materialization is display-only, so a
successful binding would simply succeed in the embedding. -/
def operationRunner_create_qgis_layer (table_name layer_name group_name : String) :
    Except String Unit :=
  match checkCall createQgisLayerParams 3 [] with
  | .error e => .error e
  | .ok _ => .ok ()

/-! ## SpatialRepository delegation (src/core/spatial_engine/repository.py)

`SpatialRepository` forwards its version-bookkeeping methods to
`self._pm`, a `ProjectManager`.  `ProjectManager` defines no
`__getattr__`, so accessing a missing attribute raises `AttributeError`.
-/

/-- The methods `class ProjectManager` defines (the `def` statements of
src/project_manager.py). -/
def projectManagerMethods : List String :=
  ["__init__", "connect", "disconnect", "_create_tables",
   "register_base_layer", "get_registered_layers", "is_layer_registered",
   "unregister_layer", "table_exists", "drop_table", "get_table_srid",
   "get_table_geometry_type", "migrate_layer", "migrate_layers",
   "record_result", "get_results_for_assessment", "_load_spatialite",
   "sanitize_table_name", "get_spatialite_type", "_get_sqlite_type",
   "_convert_qvariant", "_geometry_type_int_to_str"]

/-- The instance attributes `ProjectManager.__init__` assigns. -/
def projectManagerInstanceAttrs : List String :=
  ["db_path", "connection"]

/-- The tables `ProjectManager._create_tables` creates
(src/project_manager.py lines 59-89). -/
def projectManagerCreatedTables : List String :=
  ["base_layers_registry", "assessment_results_metadata"]

/-- Python attribute lookup on a `ProjectManager` instance: found among
the instance attributes or class methods, else `AttributeError`. -/
def pmAttrAccess (name : String) : Except String Unit :=
  if projectManagerInstanceAttrs.contains name || projectManagerMethods.contains name then
    .ok ()
  else
    .error ("AttributeError: ProjectManager object has no attribute " ++ name)

/-- `SpatialRepository.get_versions`: `return self._pm.get_versions(...)`.
The attribute access happens first; were the method present, it would
return the version list (modelled from the spec as `get_versions`). -/
def repo_get_versions (db : Db) (scenario : String) :
    Except String (List VersionRow) :=
  match pmAttrAccess "get_versions" with
  | .error e => .error e
  | .ok _ => .ok (get_versions db scenario)

/-- `SpatialRepository.get_current_version`: `return self._pm.get_current_version(...)`. -/
def repo_get_current_version (db : Db) (scenario : String) :
    Except String (Option VersionRow) :=
  match pmAttrAccess "get_current_version" with
  | .error e => .error e
  | .ok _ => .ok (get_current_version db scenario)

/-- `SpatialRepository.get_version_by_id`: `return self._pm.get_version_by_id(...)`. -/
def repo_get_version_by_id (db : Db) (vid : Nat) :
    Except String (Option VersionRow) :=
  match pmAttrAccess "get_version_by_id" with
  | .error e => .error e
  | .ok _ => .ok (get_version_by_id db vid)

/-- `SpatialRepository.create_version`: `return self._pm.create_version(...)`. -/
def repo_create_version (db : Db) (scenario table descr : String)
    (parent : Option Nat) : Except String (Db × Nat) :=
  match pmAttrAccess "create_version" with
  | .error e => .error e
  | .ok _ => .ok (create_version db scenario table descr parent)

/-- `SpatialRepository.set_current_version`: `self._pm.set_current_version(...)`. -/
def repo_set_current_version (db : Db) (scenario : String) (vid : Nat) :
    Except String Db :=
  match pmAttrAccess "set_current_version" with
  | .error e => .error e
  | .ok _ => .ok (set_current_version db scenario vid)

/-- `SpatialRepository.rename_table`: `self._pm.rename_table(old, new)`. -/
def repo_rename_table (db : Db) (old new : String) : Except String Db :=
  match pmAttrAccess "rename_table" with
  | .error e => .error e
  | .ok _ => .ok (rename_table db old new)

/-! ## Task tree builder (src/admin_manager.py) -/

/-- One `task_details` row, restricted to the fields `build_task_tree`
consults. -/
structure TaskRow where
  id : Nat
  parent_task_id : Option Nat
  step_order : Int
deriving DecidableEq, Repr

/-- The condition under which `build_task_tree` attaches a task below a
parent: `if pid and pid in task_map` — the parent id is set, truthy
(non-zero), and is the id of some task of the provenance. -/
def pidResolvable (tasks : List TaskRow) (t : TaskRow) : Bool :=
  match t.parent_task_id with
  | none => false
  | some p => (p != 0) && tasks.any (fun u => u.id == p)

/-- The accumulating state of the `build_task_tree` loop: the roots list
and every node's `children` list (`childrenOf p` is the `children` key of
the node whose task id is `p`). -/
structure TreeBuild where
  childrenOf : Nat → List TaskRow
  roots : List TaskRow

/-- One iteration of the `build_task_tree` loop body. -/
def buildTaskStep (tasks : List TaskRow) (acc : TreeBuild) (t : TaskRow) : TreeBuild :=
  match t.parent_task_id with
  | some p =>
    if (p != 0) && tasks.any (fun u => u.id == p) then
      { acc with childrenOf := fun q =>
          if q = p then acc.childrenOf q ++ [t] else acc.childrenOf q }
    else
      { acc with roots := acc.roots ++ [t] }
  | none => { acc with roots := acc.roots ++ [t] }

/-- `AdminManager.build_task_tree` (src/admin_manager.py lines 688-704):
one pass over the tasks of a provenance (as returned by
`get_tasks_for_provenance`, ordered by `step_order`), attaching each task
to its parent's `children` list when `pid and pid in task_map`, else to
the roots.  Iterating `task_map.values()` visits the tasks in list order
because task ids are primary keys (distinct). -/
def build_task_tree (tasks : List TaskRow) : TreeBuild :=
  tasks.foldl (buildTaskStep tasks) { childrenOf := fun _ => [], roots := [] }

/-! ## Derived observations used by the statements -/

/-- The `spatial_versions` rows of one base scenario name, in creation
order. -/
def versionsFor (db : Db) (s : String) : List VersionRow :=
  db.versions.filter (fun r => r.scenario_name = s)

/-- The rows of one base scenario name whose `is_current` flag is set. -/
def currentFor (db : Db) (s : String) : List VersionRow :=
  db.versions.filter (fun r => r.scenario_name = s && r.is_current)

/-- Forget the `is_current` flag — two version lists equal under
`eraseFlag` differ at most in their HEAD pointers. -/
def eraseFlag (r : VersionRow) : VersionRow :=
  { r with is_current := false }

/-- `true` on the success constructor of `Except`. -/
def exceptIsOk {α : Type} (e : Except String α) : Bool :=
  match e with
  | .ok _ => true
  | .error _ => false

/-- `N` successive `SpatialEngine.overlay` calls with the same inputs. -/
def overlayN (db : Db) (target assess output_name : String) : Nat → Db
  | 0 => db
  | n + 1 => (overlay (overlayN db target assess output_name n) target assess output_name).1

/-- A fresh project database: no feature tables, no geometry rows, no
version history; AUTOINCREMENT starts at 1. -/
def emptyDb : Db :=
  { tables := [], geometry_columns := [], versions := [], next_id := 1 }

/-- Concrete run used against the head-parent reading of overlay: two
overlays of scenario `s`, then a rollback to the first version.  The
current head is version 1, but the newest version is version 2. -/
def c3db : Db :=
  (rollback_to_version
    ((overlay ((overlay emptyDb "t" "a" "s").1) "t" "a" "s").1) "s" 1).1

/-- Concrete store holding one version for scenario `s1` (id 1) and one
for scenario `s2` (id 2): id 2 does not belong to `s1`'s history. -/
def c4db : Db :=
  { tables := [], geometry_columns := [],
    versions :=
      [{ id := 1, scenario_name := "s1", table_name := "s1__v1", descr := "",
         parent_version_id := none, is_current := true },
       { id := 2, scenario_name := "s2", table_name := "s2__v1", descr := "",
         parent_version_id := none, is_current := true }],
    next_id := 3 }

/-- Two polygon tables whose SRIDs differ (4326 vs 3857). -/
def c6db : Db :=
  { tables := ["ta", "tb"],
    geometry_columns :=
      [{ f_table_name := "ta", geometry_type := 3, srid := 4326 },
       { f_table_name := "tb", geometry_type := 3, srid := 3857 }],
    versions := [], next_id := 1 }

/-! ## Engine lemmas -/

/-- The version table after an overlay: every previous row of the base
name loses its `is_current` flag, and one new current row is appended,
whose parent is the id of the *newest* existing version (the first
element of the newest-first listing). -/
theorem overlay_fst_versions (db : Db) (target assess output_name : String) :
    (overlay db target assess output_name).1.versions =
      db.versions.map (fun r =>
        if r.scenario_name = sanitize_name output_name then { r with is_current := false } else r)
      ++ [{ id := db.next_id,
            scenario_name := sanitize_name output_name,
            table_name := sanitize_name output_name ++ "__v" ++
              toString ((get_versions db (sanitize_name output_name)).length + 1),
            descr := "Version " ++
              toString ((get_versions db (sanitize_name output_name)).length + 1),
            parent_version_id := (get_versions db (sanitize_name output_name)).head?.map
              (fun r => r.id),
            is_current := true }] := by
  simp only [overlay, create_version, writeOutputTable, rename_table, drop_table]
  cases get_versions db (sanitize_name output_name) <;> simp

theorem overlay_fst_next_id (db : Db) (target assess output_name : String) :
    (overlay db target assess output_name).1.next_id = db.next_id + 1 := by
  simp [overlay, create_version, writeOutputTable, rename_table, drop_table]

theorem overlay_snd_table (db : Db) (target assess output_name : String) :
    (overlay db target assess output_name).2.table =
      sanitize_name output_name ++ "__v" ++
        toString ((get_versions db (sanitize_name output_name)).length + 1) := by
  simp [overlay]

/-- Filtering for the base name after an overlay: the previous rows with
their flags cleared, plus the new current row. -/
theorem versionsFor_overlay (db : Db) (target assess output_name : String) :
    versionsFor (overlay db target assess output_name).1 (sanitize_name output_name) =
      (versionsFor db (sanitize_name output_name)).map eraseFlag
      ++ [{ id := db.next_id,
            scenario_name := sanitize_name output_name,
            table_name := sanitize_name output_name ++ "__v" ++
              toString ((get_versions db (sanitize_name output_name)).length + 1),
            descr := "Version " ++
              toString ((get_versions db (sanitize_name output_name)).length + 1),
            parent_version_id := (get_versions db (sanitize_name output_name)).head?.map
              (fun r => r.id),
            is_current := true }] := by
  rw [versionsFor, overlay_fst_versions, List.filter_append]
  congr 1
  · rw [List.filter_map]
    have hp : (fun r : VersionRow => decide (r.scenario_name = sanitize_name output_name)) ∘
        (fun r : VersionRow =>
          if r.scenario_name = sanitize_name output_name then { r with is_current := false } else r) =
        fun r : VersionRow => decide (r.scenario_name = sanitize_name output_name) := by
      funext r
      by_cases h : r.scenario_name = sanitize_name output_name <;> simp [h]
    rw [hp]
    apply List.map_congr_left
    intro r hr
    have := List.mem_filter.mp hr
    have h : r.scenario_name = sanitize_name output_name := by
      simpa using this.2
    simp [h, eraseFlag]
  · simp

/-- After an overlay, exactly the new row is current for the base name. -/
theorem currentFor_overlay (db : Db) (target assess output_name : String) :
    (currentFor (overlay db target assess output_name).1 (sanitize_name output_name)).length
      = 1 := by
  rw [currentFor, overlay_fst_versions, List.filter_append]
  have h1 : (db.versions.map (fun r : VersionRow =>
      if r.scenario_name = sanitize_name output_name then { r with is_current := false } else r)).filter
        (fun r => r.scenario_name = sanitize_name output_name && r.is_current) = [] := by
    rw [List.filter_eq_nil_iff]
    intro r hr
    rcases List.mem_map.mp hr with ⟨x, _, rfl⟩
    by_cases h : x.scenario_name = sanitize_name output_name <;> simp [h]
  rw [h1]
  simp

/-- Each overlay grows the base name's history by exactly one row. -/
theorem versionsFor_overlay_length (db : Db) (target assess output_name : String) :
    (versionsFor (overlay db target assess output_name).1 (sanitize_name output_name)).length =
      (versionsFor db (sanitize_name output_name)).length + 1 := by
  rw [versionsFor_overlay]
  simp

/-- The newest-first listing and the creation-order filter have the same
length. -/
theorem get_versions_length (db : Db) (s : String) :
    (get_versions db s).length = (versionsFor db s).length := by
  simp [get_versions, versionsFor]

/-- History length after `N` overlays from a state with no history. -/
theorem overlayN_length (db : Db) (target assess output_name : String)
    (h : (versionsFor db (sanitize_name output_name)).length = 0) (N : Nat) :
    (versionsFor (overlayN db target assess output_name N) (sanitize_name output_name)).length
      = N := by
  induction N with
  | zero => simpa using h
  | succ n ih =>
    show (versionsFor (overlay (overlayN db target assess output_name n)
      target assess output_name).1 (sanitize_name output_name)).length = n + 1
    rw [versionsFor_overlay_length, ih]

/-! ## Claims C1-C5 -/

/-- C1: for every scenario base name, after any sequence of `N`
successful `Overlay` calls starting from no history, listing the versions
returns exactly `N` rows, and (once at least one overlay ran) exactly one
SpatialVersion row of that name has `is_current = true`. -/
theorem spec_C1_single_current_and_count (db : Db) (target assess output_name : String)
    (N : Nat) (h : (get_versions db (sanitize_name output_name)).length = 0) :
    (get_versions (overlayN db target assess output_name N)
        (sanitize_name output_name)).length = N ∧
    (1 ≤ N →
      (currentFor (overlayN db target assess output_name N)
        (sanitize_name output_name)).length = 1) := by
  rw [get_versions_length] at h
  constructor
  · rw [get_versions_length]
    exact overlayN_length db target assess output_name h N
  · intro hN
    match N, hN with
    | n + 1, _ =>
      show (currentFor (overlay (overlayN db target assess output_name n)
        target assess output_name).1 (sanitize_name output_name)).length = 1
      exact currentFor_overlay _ target assess output_name

theorem spec_C1_witness :
    (get_versions emptyDb (sanitize_name "s")).length = 0 ∧
    ((get_versions (overlayN emptyDb "t" "a" "s" 2) (sanitize_name "s")).length = 2 ∧
     (1 ≤ 2 →
       (currentFor (overlayN emptyDb "t" "a" "s" 2) (sanitize_name "s")).length = 1)) :=
  ⟨by decide, spec_C1_single_current_and_count emptyDb "t" "a" "s" 2 (by decide)⟩

/-- C2: starting from no history, the `(k+1)`-st successful overlay for a
base output name produces (and records) the table
`sanitize(base) ++ "__v" ++ (k+1)` — version numbers start at 1 and are
strictly increasing and gapless per base name. -/
theorem spec_C2_versioned_table_names (db : Db) (target assess output_name : String)
    (k : Nat) (h : (get_versions db (sanitize_name output_name)).length = 0) :
    (overlay (overlayN db target assess output_name k) target assess output_name).2.table =
      sanitize_name output_name ++ "__v" ++ toString (k + 1) ∧
    ((overlay (overlayN db target assess output_name k) target assess
        output_name).1.versions.getLast?).map (fun r => r.table_name) =
      some (sanitize_name output_name ++ "__v" ++ toString (k + 1)) := by
  rw [get_versions_length] at h
  have hk : (get_versions (overlayN db target assess output_name k)
      (sanitize_name output_name)).length = k := by
    rw [get_versions_length]
    exact overlayN_length db target assess output_name h k
  constructor
  · rw [overlay_snd_table, hk]
  · rw [overlay_fst_versions, List.getLast?_concat, hk]
    rfl

theorem spec_C2_witness :
    (get_versions emptyDb (sanitize_name "s")).length = 0 ∧
    ((overlay (overlayN emptyDb "t" "a" "s" 1) "t" "a" "s").2.table =
      sanitize_name "s" ++ "__v" ++ toString (1 + 1) ∧
     ((overlay (overlayN emptyDb "t" "a" "s" 1) "t" "a"
        "s").1.versions.getLast?).map (fun r => r.table_name) =
      some (sanitize_name "s" ++ "__v" ++ toString (1 + 1))) :=
  ⟨by decide, spec_C2_versioned_table_names emptyDb "t" "a" "s" 1 (by decide)⟩

/-- C3 (counterexample to the claim as stated): after two overlays of
scenario `s` and a rollback to version 1, the current head is version 1,
yet the next overlay records `parent_version_id = 2` — the id of the
newest version, not of the previous head. -/
theorem spec_C3_counterexample :
    (get_current_version c3db "s").map (fun r => r.id) = some 1 ∧
    ((overlay c3db "t" "a" "s").1.versions.getLast?).map
      (fun r => r.parent_version_id) = some (some 2) := by
  constructor
  · rfl
  · rfl

/-- C3 as amended: the newly recorded SpatialVersion's
`parent_version_id` equals the id of the *most recently created* version
for that base name (the first element of the newest-first listing), or
null when no prior version exists — this is the previous head only when
no rollback moved the head — and after the overlay exactly one row of
that name is current. -/
theorem spec_C3_parent_is_newest (db : Db) (target assess output_name : String) :
    ((overlay db target assess output_name).1.versions.getLast?).map
        (fun r => r.parent_version_id) =
      some ((get_versions db (sanitize_name output_name)).head?.map (fun r => r.id)) ∧
    (currentFor (overlay db target assess output_name).1
        (sanitize_name output_name)).length = 1 := by
  constructor
  · rw [overlay_fst_versions, List.getLast?_concat]
    rfl
  · exact currentFor_overlay db target assess output_name

/-- C4 (counterexample to the claim as stated): version id 2 belongs to
scenario `s2`, not to `s1`, yet `rollback_to_version("s1", 2)` succeeds
instead of failing with NotFound. -/
theorem spec_C4_counterexample :
    (get_versions c4db "s1").all (fun r => r.id ≠ 2) = true ∧
    exceptIsOk (rollback_to_version c4db "s1" 2).2 = true := by
  constructor
  · rfl
  · rfl

/-- C4 as amended: `rollback_to_version` fails (with `ValueError`) and
leaves the state unchanged exactly when the version id exists in no
scenario's history; when the id exists — even under a *different*
scenario — the call succeeds. -/
theorem spec_C4_rollback_notfound (db : Db) (scenario_name : String) (vid : Nat) :
    (get_version_by_id db vid = none →
      exceptIsOk (rollback_to_version db scenario_name vid).2 = false ∧
      (rollback_to_version db scenario_name vid).1 = db) ∧
    (∀ v, get_version_by_id db vid = some v →
      exceptIsOk (rollback_to_version db scenario_name vid).2 = true) := by
  constructor
  · intro h
    constructor
    · simp [rollback_to_version, h, exceptIsOk]
    · simp [rollback_to_version, h]
  · intro v h
    simp [rollback_to_version, h, exceptIsOk]

theorem spec_C4_witness :
    get_version_by_id c4db 99 = none ∧
    (exceptIsOk (rollback_to_version c4db "s1" 99).2 = false ∧
     (rollback_to_version c4db "s1" 99).1 = c4db) :=
  ⟨by decide, (spec_C4_rollback_notfound c4db "s1" 99).1 (by decide)⟩

/-- C5: rollback touches no feature table and no geometry registration —
it changes only `is_current` flags — and compare (two `load_version`
calls) changes nothing at all, regardless of outcome. -/
theorem spec_C5_rollback_compare_frame (db : Db) (scenario_name : String)
    (vid vidA vidB : Nat) :
    ((rollback_to_version db scenario_name vid).1.tables = db.tables ∧
     (rollback_to_version db scenario_name vid).1.geometry_columns = db.geometry_columns ∧
     (rollback_to_version db scenario_name vid).1.next_id = db.next_id ∧
     (rollback_to_version db scenario_name vid).1.versions.map eraseFlag =
       db.versions.map eraseFlag) ∧
    (compare_versions db vidA vidB).1 = db := by
  constructor
  · cases h : get_version_by_id db vid with
    | none => simp [rollback_to_version, h]
    | some v =>
      refine ⟨by simp [rollback_to_version, h, set_current_version],
        by simp [rollback_to_version, h, set_current_version],
        by simp [rollback_to_version, h, set_current_version], ?_⟩
      simp only [rollback_to_version, h, set_current_version, List.map_map]
      apply List.map_congr_left
      intro r _
      by_cases hr : r.scenario_name = sanitize_name scenario_name <;>
        simp [Function.comp, eraseFlag, hr]
  · cases h1 : get_version_by_id db vidA with
    | none => simp [compare_versions, load_version, h1]
    | some v1 =>
      cases h2 : get_version_by_id db vidB with
      | none => simp [compare_versions, load_version, h1, h2]
      | some v2 => simp [compare_versions, load_version, h1, h2]

/-! ## Claims C9 and C10 (wiring) -/

/-- C9: `ProjectManager` defines none of the six version-bookkeeping
methods that `SpatialRepository` delegates to, and its schema setup
creates no `spatial_versions` table; so each delegating repository
method — for every input — raises `AttributeError`. -/
theorem spec_C9_delegates_missing :
    (∀ db s, repo_get_versions db s =
      .error "AttributeError: ProjectManager object has no attribute get_versions") ∧
    (∀ db s, repo_get_current_version db s =
      .error "AttributeError: ProjectManager object has no attribute get_current_version") ∧
    (∀ db vid, repo_get_version_by_id db vid =
      .error "AttributeError: ProjectManager object has no attribute get_version_by_id") ∧
    (∀ db s t d p, repo_create_version db s t d p =
      .error "AttributeError: ProjectManager object has no attribute create_version") ∧
    (∀ db s vid, repo_set_current_version db s vid =
      .error "AttributeError: ProjectManager object has no attribute set_current_version") ∧
    (∀ db o n, repo_rename_table db o n =
      .error "AttributeError: ProjectManager object has no attribute rename_table") ∧
    projectManagerCreatedTables.contains "spatial_versions" = false :=
  ⟨fun _ _ => rfl, fun _ _ => rfl, fun _ _ => rfl, fun _ _ _ _ _ => rfl,
   fun _ _ _ => rfl, fun _ _ _ => rfl, rfl⟩

/-- C10: `OperationRunner.execute` passes the keyword `add_to_qgis`,
which `analyze_and_create_layer` does not accept, and
`OperationRunner.create_qgis_layer` passes three positional arguments to
the two-parameter `_create_qgis_layer`; both raise `TypeError` at call
binding — before any spatial SQL runs and with the database unchanged. -/
theorem spec_C10_runner_binding_fails (db : Db) (target assess out : String)
    (op : OverlayOperation) (table_name layer_name group_name : String) :
    operationRunner_execute db target assess out op =
      (db, .error "TypeError: unexpected keyword argument") ∧
    operationRunner_create_qgis_layer table_name layer_name group_name =
      .error "TypeError: too many positional arguments" :=
  ⟨rfl, rfl⟩

/-! ## Claim C6 (geometry compatibility validation) -/

/-- C6: when the two input tables exist but fail geometry-compatibility
validation, `analyze_and_create_layer` raises the incompatibility error
built from the per-check flags — the message names each failed check —
and the database is unchanged: no table is created or dropped and no
version row is recorded. -/
theorem spec_C6_validation_aborts (db : Db) (target assess out : String)
    (gt ga : GeomCol)
    (htex : table_exists db target = true) (haex : table_exists db assess = true)
    (hgt : geomColOf db target = some gt) (hga : geomColOf db assess = some ga)
    (hbad : ¬ (gt.srid = ga.srid ∧
      polygon_types.contains (geometry_type_int_to_str gt.geometry_type) = true ∧
      polygon_types.contains (geometry_type_int_to_str ga.geometry_type) = true)) :
    analyze_and_create_layer db target assess out =
      (db, .error ("Geometry incompatibility: " ++
        get_compatibility_message (decide (gt.srid = ga.srid))
          (polygon_types.contains (geometry_type_int_to_str gt.geometry_type) &&
            polygon_types.contains (geometry_type_int_to_str ga.geometry_type))
          (geometry_type_int_to_str gt.geometry_type)
          (geometry_type_int_to_str ga.geometry_type) gt.srid ga.srid)) := by
  have hcompat : validate_geometry_compatibility db target assess =
      .ok { compatible := decide (gt.srid = ga.srid) &&
              (polygon_types.contains (geometry_type_int_to_str gt.geometry_type) &&
                polygon_types.contains (geometry_type_int_to_str ga.geometry_type)),
            srid_compatible := decide (gt.srid = ga.srid),
            type_compatible :=
              polygon_types.contains (geometry_type_int_to_str gt.geometry_type) &&
                polygon_types.contains (geometry_type_int_to_str ga.geometry_type),
            message := get_compatibility_message (decide (gt.srid = ga.srid))
              (polygon_types.contains (geometry_type_int_to_str gt.geometry_type) &&
                polygon_types.contains (geometry_type_int_to_str ga.geometry_type))
              (geometry_type_int_to_str gt.geometry_type)
              (geometry_type_int_to_str ga.geometry_type) gt.srid ga.srid } := by
    simp [validate_geometry_compatibility, hgt, hga]
  have hfalse : (decide (gt.srid = ga.srid) &&
      (polygon_types.contains (geometry_type_int_to_str gt.geometry_type) &&
        polygon_types.contains (geometry_type_int_to_str ga.geometry_type))) = false := by
    by_contra hne
    apply hbad
    have := eq_true_of_ne_false hne
    simp only [Bool.and_eq_true, decide_eq_true_eq] at this
    exact ⟨this.1, this.2.1, this.2.2⟩
  simp [analyze_and_create_layer, htex, haex, hcompat, hfalse]
  intro h1 h2
  by_contra h3
  exact hbad ⟨h1, by simpa using h2, by simpa using h3⟩

theorem spec_C6_witness :
    (¬ ((4326 : Int) = 3857 ∧
      polygon_types.contains (geometry_type_int_to_str 3) = true ∧
      polygon_types.contains (geometry_type_int_to_str 3) = true)) ∧
    analyze_and_create_layer c6db "ta" "tb" "out" =
      (c6db, .error ("Geometry incompatibility: " ++
        get_compatibility_message (decide ((4326 : Int) = 3857))
          (polygon_types.contains (geometry_type_int_to_str 3) &&
            polygon_types.contains (geometry_type_int_to_str 3))
          (geometry_type_int_to_str 3) (geometry_type_int_to_str 3) 4326 3857)) :=
  ⟨by decide,
   spec_C6_validation_aborts c6db "ta" "tb" "out"
     { f_table_name := "ta", geometry_type := 3, srid := 4326 }
     { f_table_name := "tb", geometry_type := 3, srid := 3857 }
     rfl rfl rfl rfl (by decide)⟩

/-! ## Claim C8 (task tree builder) -/

/-- Unrolling the `build_task_tree` loop: the roots accumulate exactly
the tasks whose parent pointer does not resolve, and each `children` list
accumulates exactly the tasks attached to that parent id, both in
iteration order. -/
theorem buildTaskTree_foldl (tasks : List TaskRow) (l : List TaskRow)
    (acc : TreeBuild) (p : Nat) :
    (l.foldl (buildTaskStep tasks) acc).roots =
      acc.roots ++ l.filter (fun t => !pidResolvable tasks t) ∧
    (l.foldl (buildTaskStep tasks) acc).childrenOf p =
      acc.childrenOf p ++ l.filter (fun t =>
        pidResolvable tasks t && t.parent_task_id == some p) := by
  induction l generalizing acc with
  | nil => simp
  | cons t rest ih =>
    rcases hpt : t.parent_task_id with _ | q
    · have hres : pidResolvable tasks t = false := by
        simp [pidResolvable, hpt]
      rcases ih (buildTaskStep tasks acc t) with ⟨ih1, ih2⟩
      constructor
      · rw [List.foldl_cons, ih1]
        simp [buildTaskStep, hpt, hres]
      · rw [List.foldl_cons, ih2]
        simp [buildTaskStep, hpt, hres]
    · by_cases hc : ((q != 0) && tasks.any (fun u => u.id == q)) = true
      · have hres : pidResolvable tasks t = true := by
          simp only [pidResolvable, hpt]
          exact hc
        rcases ih (buildTaskStep tasks acc t) with ⟨ih1, ih2⟩
        constructor
        · rw [List.foldl_cons, ih1]
          simp [buildTaskStep, hpt, hc, hres]
        · rw [List.foldl_cons, ih2]
          by_cases hq : q = p
          · subst hq
            simp [buildTaskStep, hpt, hc, hres]
          · have hne : p ≠ q := fun h => hq h.symm
            have hcond : (pidResolvable tasks t && (t.parent_task_id == some p)) = false := by
              simp [hpt, hq]
            simp [buildTaskStep, hpt, hc, hcond, hne]
            simp [List.filter_cons, hcond]
      · have hres : pidResolvable tasks t = false := by
          simp only [pidResolvable, hpt]
          exact Bool.not_eq_true _ ▸ (by simpa using hc)
        rcases ih (buildTaskStep tasks acc t) with ⟨ih1, ih2⟩
        constructor
        · rw [List.foldl_cons, ih1]
          simp [buildTaskStep, hpt, hc, hres]
        · rw [List.foldl_cons, ih2]
          simp [buildTaskStep, hpt, hc, hres]

/-- C8: `build_task_tree` turns the flat task list into a forest in
which a task hangs below a parent exactly when its parent id is set
(truthy) and resolves to a task id of the same provenance's list; every
other task becomes a root rather than raising; and, with the input
ordered by `step_order` (as `get_tasks_for_provenance` returns it), each
node's `children` list is in ascending `step_order`. -/
theorem spec_C8_task_forest (tasks : List TaskRow) (p : Nat)
    (hsort : tasks.Pairwise (fun x y => x.step_order ≤ y.step_order)) :
    (build_task_tree tasks).roots = tasks.filter (fun t => !pidResolvable tasks t) ∧
    (build_task_tree tasks).childrenOf p =
      tasks.filter (fun t => pidResolvable tasks t && t.parent_task_id == some p) ∧
    ((build_task_tree tasks).childrenOf p).Pairwise
      (fun x y => x.step_order ≤ y.step_order) := by
  have h := buildTaskTree_foldl tasks tasks { childrenOf := fun _ => [], roots := [] } p
  have h2 : (build_task_tree tasks).childrenOf p =
      tasks.filter (fun t => pidResolvable tasks t && t.parent_task_id == some p) := by
    simpa [build_task_tree] using h.2
  refine ⟨by simpa [build_task_tree] using h.1, h2, ?_⟩
  rw [h2]
  exact List.Pairwise.sublist (List.filter_sublist tasks) hsort

theorem spec_C8_witness :
    (([{ id := 1, parent_task_id := none, step_order := 1 },
       { id := 2, parent_task_id := some 1, step_order := 2 },
       { id := 3, parent_task_id := some 99, step_order := 3 }] : List TaskRow).Pairwise
      (fun x y => x.step_order ≤ y.step_order)) ∧
    ((build_task_tree [{ id := 1, parent_task_id := none, step_order := 1 },
        { id := 2, parent_task_id := some 1, step_order := 2 },
        { id := 3, parent_task_id := some 99, step_order := 3 }]).roots =
      [{ id := 1, parent_task_id := none, step_order := 1 },
       { id := 3, parent_task_id := some 99, step_order := 3 }] ∧
     (build_task_tree [{ id := 1, parent_task_id := none, step_order := 1 },
        { id := 2, parent_task_id := some 1, step_order := 2 },
        { id := 3, parent_task_id := some 99, step_order := 3 }]).childrenOf 1 =
      [{ id := 2, parent_task_id := some 1, step_order := 2 }]) := by
  have h := spec_C8_task_forest
    [{ id := 1, parent_task_id := none, step_order := 1 },
     { id := 2, parent_task_id := some 1, step_order := 2 },
     { id := 3, parent_task_id := some 99, step_order := 3 }] 1 (by decide)
  refine ⟨by decide, ?_, ?_⟩
  · rw [h.1]
    decide
  · rw [h.2.1]
    decide

/-! ## Sanitizer lemmas (claim C7) -/

theorem char_toNat_ofNat_valid {n : Nat} (h : n.isValidChar) :
    (Char.ofNat n).toNat = n := by
  rw [Char.ofNat, dif_pos h]
  rfl

theorem char_toLower_eq_self {c : Char} (h : ¬ (65 ≤ c.toNat ∧ c.toNat ≤ 90)) :
    c.toLower = c := by
  rw [Char.toLower]
  exact if_neg h

theorem char_toLower_toNat_of_upper {c : Char} (h : 65 ≤ c.toNat ∧ c.toNat ≤ 90) :
    c.toLower.toNat = c.toNat + 32 := by
  rw [Char.toLower, if_pos h]
  exact char_toNat_ofNat_valid (Or.inl (by omega))

theorem isLowerWordChar_toLower {c : Char} (h : IsWordChar c) :
    IsLowerWordChar c.toLower := by
  rcases h with h | h | h | h
  · rw [IsLowerWordChar]
    rw [char_toLower_toNat_of_upper h]
    left
    omega
  · rw [char_toLower_eq_self (by omega)]
    exact Or.inl h
  · rw [char_toLower_eq_self (by omega)]
    exact Or.inr (Or.inl h)
  · rw [char_toLower_eq_self (by omega)]
    exact Or.inr (Or.inr h)

theorem isLowerWordChar_isWordChar {c : Char} (h : IsLowerWordChar c) :
    IsWordChar c := by
  rcases h with h | h | h
  · exact Or.inr (Or.inl h)
  · exact Or.inr (Or.inr (Or.inl h))
  · exact Or.inr (Or.inr (Or.inr h))

theorem isLowerWordChar_toLower_eq_self {c : Char} (h : IsLowerWordChar c) :
    c.toLower = c := by
  rcases h with h | h | h <;> exact char_toLower_eq_self (by omega)

theorem isDigitChar_ne_underscore {c : Char} (h : IsDigitChar c) : c ≠ '_' := by
  intro hc
  subst hc
  exact absurd h (by decide)

theorem mapIdOn {α : Type} (f : α → α) :
    ∀ (l : List α), (∀ c ∈ l, f c = c) → l.map f = l
  | [], _ => rfl
  | c :: rest, h => by
    rw [List.map_cons, h c (List.mem_cons_self c rest),
      mapIdOn f rest (fun x hx => h x (List.mem_cons_of_mem c hx))]

/-! ### `hasTriple` basics -/

theorem hasTriple_tail {c : Char} {l : List Char} (h : hasTriple (c :: l) = false) :
    hasTriple l = false := by
  match l with
  | [] => rfl
  | [x] => rfl
  | c2 :: c3 :: r =>
    rw [hasTriple] at h
    exact (Bool.or_eq_false_iff.mp h).2

theorem hasTriple_append_left {a l : List Char} (h : hasTriple (a ++ l) = false) :
    hasTriple l = false := by
  induction a with
  | nil => exact h
  | cons c rest ih => exact ih (hasTriple_tail h)

theorem hasTriple_cons_ne {c : Char} (hc : c ≠ '_') (l : List Char) :
    hasTriple (c :: l) = hasTriple l := by
  match l with
  | [] => rfl
  | [x] => rfl
  | c2 :: c3 :: r =>
    rw [hasTriple]
    simp [hc]

theorem hasTriple_cons_cons_ne {c : Char} (hc : c ≠ '_') (l : List Char) :
    hasTriple ('_' :: c :: l) = hasTriple (c :: l) := by
  match l with
  | [] => rfl
  | c3 :: r =>
    rw [hasTriple]
    simp [hc]

theorem hasTriple_two_cons_ne {c : Char} (hc : c ≠ '_') (l : List Char) :
    hasTriple ('_' :: '_' :: c :: l) = hasTriple (c :: l) := by
  rw [hasTriple]
  have hcc : (c == '_') = false := beq_eq_false_iff_ne.mpr hc
  simp [hcc, hasTriple_cons_cons_ne hc l]

theorem hasTriple_append_right {l : List Char} (t : List Char)
    (h : hasTriple l = true) : hasTriple (l ++ t) = true := by
  match l with
  | [] => exact absurd h (by simp [hasTriple])
  | [x] => exact absurd h (by simp [hasTriple])
  | [x, y] => exact absurd h (by simp [hasTriple])
  | c1 :: c2 :: c3 :: r =>
    rw [hasTriple] at h
    rcases Bool.or_eq_true_iff.mp h with h1 | h2
    · show hasTriple (c1 :: c2 :: c3 :: (r ++ t)) = true
      rw [hasTriple, h1]
      simp
    · show hasTriple (c1 :: c2 :: c3 :: (r ++ t)) = true
      rw [hasTriple]
      have := hasTriple_append_right t h2
      rw [List.cons_append, List.cons_append] at this
      rw [this]
      simp

/-! ### Collapse: output has no triple run; identity on triple-free input -/

theorem hasTriple_replicate_ge3 {n : Nat} (h3 : 3 ≤ n) (l : List Char) :
    hasTriple (List.replicate n '_' ++ l) = true := by
  match n, h3 with
  | m + 3, _ =>
    show hasTriple ('_' :: '_' :: '_' :: (List.replicate m '_' ++ l)) = true
    rw [hasTriple]
    simp

theorem hasTriple_emitRun_cons {c : Char} (hc : c ≠ '_') (n : Nat) (l : List Char) :
    hasTriple (emitRun n ++ c :: l) = hasTriple (c :: l) := by
  by_cases h3 : 3 ≤ n
  · rw [emitRun, if_pos h3]
    exact hasTriple_two_cons_ne hc l
  · rw [emitRun, if_neg h3]
    have : n = 0 ∨ n = 1 ∨ n = 2 := by omega
    rcases this with rfl | rfl | rfl
    · simp
    · show hasTriple ('_' :: c :: l) = hasTriple (c :: l)
      exact hasTriple_cons_cons_ne hc l
    · show hasTriple ('_' :: '_' :: c :: l) = hasTriple (c :: l)
      exact hasTriple_two_cons_ne hc l

theorem hasTriple_collapseAux : ∀ (l : List Char) (n : Nat),
    hasTriple (collapseAux n l) = false
  | [], n => by
    rw [collapseAux, emitRun]
    by_cases h3 : 3 ≤ n
    · rw [if_pos h3]
      decide
    · rw [if_neg h3]
      have : n = 0 ∨ n = 1 ∨ n = 2 := by omega
      rcases this with rfl | rfl | rfl <;> decide
  | c :: rest, n => by
    rw [collapseAux]
    by_cases hc : c = '_'
    · rw [if_pos hc]
      exact hasTriple_collapseAux rest (n + 1)
    · rw [if_neg hc]
      rw [hasTriple_emitRun_cons hc, hasTriple_cons_ne hc]
      exact hasTriple_collapseAux rest 0

theorem collapseAux_eq_self : ∀ (l : List Char) (n : Nat),
    hasTriple (List.replicate n '_' ++ l) = false →
    collapseAux n l = List.replicate n '_' ++ l
  | [], n, h => by
    rw [collapseAux, List.append_nil]
    have h3 : ¬ 3 ≤ n := by
      intro h3
      rw [hasTriple_replicate_ge3 h3 []] at h
      exact absurd h (by simp)
    rw [emitRun, if_neg h3]
  | c :: rest, n, h => by
    rw [collapseAux]
    by_cases hc : c = '_'
    · rw [if_pos hc]
      subst hc
      have hrepl : List.replicate n '_' ++ '_' :: rest =
          List.replicate (n + 1) '_' ++ rest := by
        rw [List.replicate_succ']
        simp
      rw [hrepl] at h
      rw [collapseAux_eq_self rest (n + 1) h, hrepl]
    · rw [if_neg hc]
      have h3 : ¬ 3 ≤ n := by
        intro h3
        rw [hasTriple_replicate_ge3 h3 (c :: rest)] at h
        exact absurd h (by simp)
      have hrest : hasTriple rest = false :=
        hasTriple_tail (hasTriple_append_left h)
      have hzero := collapseAux_eq_self rest 0 (by simpa using hrest)
      simp only [List.replicate, List.nil_append] at hzero
      rw [hzero, emitRun, if_neg h3]

theorem collapseUnderscores_eq_self {l : List Char} (h : hasTriple l = false) :
    collapseUnderscores l = l := by
  have := collapseAux_eq_self l 0 (by simpa using h)
  simpa [collapseUnderscores] using this

theorem mem_collapseAux : ∀ (l : List Char) (n : Nat) (c : Char),
    c ∈ collapseAux n l → c = '_' ∨ c ∈ l
  | [], n, c => by
    intro hmem
    rw [collapseAux, emitRun] at hmem
    left
    by_cases h3 : 3 ≤ n
    · rw [if_pos h3] at hmem
      simpa using hmem
    · rw [if_neg h3] at hmem
      exact List.eq_of_mem_replicate hmem
  | x :: rest, n, c => by
    intro hmem
    rw [collapseAux] at hmem
    by_cases hx : x = '_'
    · rw [if_pos hx] at hmem
      rcases mem_collapseAux rest (n + 1) c hmem with h | h
      · exact Or.inl h
      · exact Or.inr (List.mem_cons_of_mem x h)
    · rw [if_neg hx] at hmem
      rcases List.mem_append.mp hmem with h | h
      · left
        rw [emitRun] at h
        by_cases h3 : 3 ≤ n
        · rw [if_pos h3] at h
          simpa using h
        · rw [if_neg h3] at h
          exact List.eq_of_mem_replicate h
      · rcases List.mem_cons.mp h with h | h
        · exact Or.inr (h ▸ List.mem_cons_self x rest)
        · rcases mem_collapseAux rest 0 c h with h2 | h2
          · exact Or.inl h2
          · exact Or.inr (List.mem_cons_of_mem x h2)

/-! ### Strip: prefix/suffix structure, boundary characters -/

theorem rstripU_append : ∀ (l : List Char), ∃ t, l = rstripU l ++ t
  | [] => ⟨[], rfl⟩
  | c :: rest => by
    rcases rstripU_append rest with ⟨t, ht⟩
    rw [rstripU]
    by_cases hnil : rstripU rest = []
    · rw [if_pos hnil]
      by_cases hc : c = '_'
      · exact ⟨c :: rest, by rw [if_pos hc]; rfl⟩
      · exact ⟨rest, by rw [if_neg hc]; rfl⟩
    · rw [if_neg hnil]
      exact ⟨t, by rw [List.cons_append, ← ht]⟩

theorem hasTriple_rstripU {l : List Char} (h : hasTriple l = false) :
    hasTriple (rstripU l) = false := by
  rcases rstripU_append l with ⟨t, ht⟩
  by_contra hne
  have htrue : hasTriple (rstripU l) = true := by
    cases hh : hasTriple (rstripU l)
    · exact absurd hh hne
    · rfl
  rw [ht, hasTriple_append_right t htrue] at h
  exact absurd h (by simp)

theorem mem_rstripU {l : List Char} {c : Char} (h : c ∈ rstripU l) : c ∈ l := by
  rcases rstripU_append l with ⟨t, ht⟩
  rw [ht]
  exact List.mem_append_left t h

theorem rstripU_getLast : ∀ (l : List Char) (c : Char),
    (rstripU l).getLast? = some c → c ≠ '_'
  | [], c => by
    intro h
    simp [rstripU] at h
  | x :: rest, c => by
    intro h
    rw [rstripU] at h
    by_cases hnil : rstripU rest = []
    · rw [if_pos hnil] at h
      by_cases hx : x = '_'
      · rw [if_pos hx] at h
        exact absurd h (by simp)
      · rw [if_neg hx] at h
        simp only [List.getLast?_singleton, Option.some.injEq] at h
        exact h ▸ hx
    · rw [if_neg hnil] at h
      rcases hr : rstripU rest with _ | ⟨y, ys⟩
      · exact absurd hr hnil
      · rw [hr, List.getLast?_cons_cons] at h
        exact rstripU_getLast rest c (by rw [hr]; exact h)

theorem rstripU_eq_self : ∀ (l : List Char),
    (∀ c, l.getLast? = some c → c ≠ '_') → rstripU l = l
  | [], _ => rfl
  | x :: rest, h => by
    rw [rstripU]
    rcases hr : rest with _ | ⟨y, ys⟩
    · have hx : x ≠ '_' := h x (by rw [hr]; simp)
      simp [rstripU, hr, hx]
    · have hrest : rstripU rest = rest := by
        apply rstripU_eq_self
        intro c hc
        apply h
        rw [hr] at hc ⊢
        rw [List.getLast?_cons_cons]
        exact hc
      rw [hr] at hrest
      rw [← hr] at hrest ⊢
      rw [hrest]
      have hne : rest ≠ [] := by rw [hr]; exact List.cons_ne_nil y ys
      rw [if_neg hne]

theorem rstripU_head : ∀ (l : List Char),
    rstripU l = [] ∨ (rstripU l).head? = l.head?
  | [] => Or.inl rfl
  | x :: rest => by
    rw [rstripU]
    by_cases hnil : rstripU rest = []
    · rw [if_pos hnil]
      by_cases hx : x = '_'
      · rw [if_pos hx]
        exact Or.inl rfl
      · rw [if_neg hx]
        exact Or.inr rfl
    · rw [if_neg hnil]
      exact Or.inr rfl

theorem dropWhileU_head : ∀ (l : List Char) (c : Char),
    ((l.dropWhile (fun c => c == '_')).head? = some c) → c ≠ '_'
  | [], c => by
    intro h
    exact absurd h (by simp)
  | x :: rest, c => by
    intro h
    rw [List.dropWhile_cons] at h
    by_cases hx : (x == '_') = true
    · rw [if_pos hx] at h
      exact dropWhileU_head rest c h
    · rw [if_neg hx] at h
      simp only [List.head?_cons, Option.some.injEq] at h
      subst h
      simpa using hx

theorem hasTriple_stripU {l : List Char} (h : hasTriple l = false) :
    hasTriple (stripU l) = false := by
  rw [stripU]
  apply hasTriple_rstripU
  rcases List.dropWhile_suffix (l := l) (fun c => c == '_') with ⟨a, ha⟩
  rw [← ha] at h
  exact hasTriple_append_left h

theorem mem_stripU {l : List Char} {c : Char} (h : c ∈ stripU l) : c ∈ l := by
  rw [stripU] at h
  exact (List.dropWhile_sublist (fun c => c == '_')).subset (mem_rstripU h)

theorem stripU_head {l : List Char} {c : Char} (h : (stripU l).head? = some c) :
    c ≠ '_' := by
  rw [stripU] at h
  rcases rstripU_head (l.dropWhile (fun c => c == '_')) with hnil | hhead
  · rw [hnil] at h
    exact absurd h (by simp)
  · rw [hhead] at h
    exact dropWhileU_head l c h

theorem stripU_getLast {l : List Char} {c : Char}
    (h : (stripU l).getLast? = some c) : c ≠ '_' :=
  rstripU_getLast _ c h

theorem stripU_eq_self {l : List Char}
    (hhead : ∀ c, l.head? = some c → c ≠ '_')
    (hlast : ∀ c, l.getLast? = some c → c ≠ '_') : stripU l = l := by
  rw [stripU]
  have hdrop : l.dropWhile (fun c => c == '_') = l := by
    rcases hl : l with _ | ⟨x, rest⟩
    · rfl
    · rw [List.dropWhile_cons]
      have hx : x ≠ '_' := by
        apply hhead
        rw [hl]
        rfl
      rw [if_neg (by simpa using hx)]
  rw [hdrop]
  exact rstripU_eq_self l hlast

/-! ### Postconditions of `sanitize_table_name` -/

theorem mem_underscoreNonWord {l : List Char} {c : Char}
    (h : c ∈ underscoreNonWord l) : IsWordChar c := by
  rw [underscoreNonWord] at h
  rcases List.mem_map.mp h with ⟨x, _, rfl⟩
  by_cases hx : IsWordChar x
  · rw [if_pos hx]
    exact hx
  · rw [if_neg hx]
    decide

theorem mem_lowerAll_unw {l : List Char} {c : Char}
    (h : c ∈ lowerAll (underscoreNonWord l)) : IsLowerWordChar c := by
  rw [lowerAll] at h
  rcases List.mem_map.mp h with ⟨x, hx, rfl⟩
  exact isLowerWordChar_toLower (mem_underscoreNonWord hx)

theorem sanitizeStage_mem {l : List Char} {c : Char}
    (h : c ∈ sanitizeStage l) : IsLowerWordChar c := by
  rw [sanitizeStage] at h
  rcases mem_collapseAux _ 0 c (mem_stripU h) with rfl | h2
  · decide
  · exact mem_lowerAll_unw h2

theorem sanitizeStage_hasTriple (l : List Char) :
    hasTriple (sanitizeStage l) = false :=
  hasTriple_stripU (hasTriple_collapseAux _ 0)

theorem sanitizeStage_head {l : List Char} {c : Char}
    (h : (sanitizeStage l).head? = some c) : c ≠ '_' :=
  stripU_head h

theorem sanitizeStage_getLast {l : List Char} {c : Char}
    (h : (sanitizeStage l).getLast? = some c) : c ≠ '_' :=
  stripU_getLast h

/-- The three shapes a sanitized name takes: the fallback name, the
digit-guarded name, or the stripped stage output itself. -/
theorem sanitize_table_name_cases (x : List Char) :
    (sanitizeStage x = [] ∧ sanitize_table_name x = "unnamed_layer".toList) ∨
    (∃ c rest, sanitizeStage x = c :: rest ∧ IsDigitChar c ∧
      sanitize_table_name x = "layer_".toList ++ sanitizeStage x) ∨
    (∃ c rest, sanitizeStage x = c :: rest ∧ ¬ IsDigitChar c ∧
      sanitize_table_name x = sanitizeStage x) := by
  rcases hs : sanitizeStage x with _ | ⟨c, rest⟩
  · left
    exact ⟨rfl, by simp [sanitize_table_name, hs]⟩
  · right
    by_cases hd : IsDigitChar c
    · left
      refine ⟨c, rest, rfl, hd, ?_⟩
      simp [sanitize_table_name, hs, hd]
    · right
      refine ⟨c, rest, rfl, hd, ?_⟩
      simp [sanitize_table_name, hs, hd]

theorem sanitize_mem {x : List Char} {c : Char}
    (h : c ∈ sanitize_table_name x) : IsLowerWordChar c := by
  rcases sanitize_table_name_cases x with ⟨_, hy⟩ | ⟨d, rest, hs, _, hy⟩ | ⟨d, rest, hs, _, hy⟩
  · rw [hy] at h
    exact (by decide : ∀ a ∈ "unnamed_layer".toList, IsLowerWordChar a) c h
  · rw [hy] at h
    rcases List.mem_append.mp h with h1 | h2
    · exact (by decide : ∀ a ∈ "layer_".toList, IsLowerWordChar a) c h1
    · exact sanitizeStage_mem h2
  · rw [hy] at h
    exact sanitizeStage_mem h

theorem sanitize_hasTriple (x : List Char) :
    hasTriple (sanitize_table_name x) = false := by
  rcases sanitize_table_name_cases x with ⟨_, hy⟩ | ⟨d, rest, hs, hd, hy⟩ | ⟨d, rest, hs, _, hy⟩
  · rw [hy]
    decide
  · rw [hy, hs]
    have hd' : d ≠ '_' := isDigitChar_ne_underscore hd
    show hasTriple ('l' :: 'a' :: 'y' :: 'e' :: 'r' :: '_' :: d :: rest) = false
    rw [hasTriple_cons_ne (by decide), hasTriple_cons_ne (by decide),
      hasTriple_cons_ne (by decide), hasTriple_cons_ne (by decide),
      hasTriple_cons_ne (by decide), hasTriple_cons_cons_ne hd']
    rw [← hs]
    exact sanitizeStage_hasTriple x
  · rw [hy]
    exact sanitizeStage_hasTriple x

theorem sanitize_ne_nil (x : List Char) : sanitize_table_name x ≠ [] := by
  rcases sanitize_table_name_cases x with ⟨_, hy⟩ | ⟨d, rest, hs, _, hy⟩ | ⟨d, rest, hs, _, hy⟩
  · rw [hy]
    decide
  · rw [hy, hs]
    simp
  · rw [hy, hs]
    simp

theorem sanitize_head {x : List Char} {c : Char}
    (h : (sanitize_table_name x).head? = some c) : ¬ IsDigitChar c ∧ c ≠ '_' := by
  rcases sanitize_table_name_cases x with ⟨_, hy⟩ | ⟨d, rest, hs, hd, hy⟩ | ⟨d, rest, hs, hd, hy⟩
  · rw [hy] at h
    have : c = 'u' := by
      simpa using h.symm
    subst this
    exact ⟨by decide, by decide⟩
  · rw [hy] at h
    have : c = 'l' := by
      simpa using h.symm
    subst this
    exact ⟨by decide, by decide⟩
  · rw [hy, hs] at h
    have : c = d := by
      simpa using h.symm
    subst this
    exact ⟨hd, sanitizeStage_head (hs ▸ rfl : (sanitizeStage x).head? = some c)⟩

theorem sanitize_getLast {x : List Char} {c : Char}
    (h : (sanitize_table_name x).getLast? = some c) : c ≠ '_' := by
  rcases sanitize_table_name_cases x with ⟨_, hy⟩ | ⟨d, rest, hs, _, hy⟩ | ⟨d, rest, hs, _, hy⟩
  · rw [hy] at h
    have : c = 'r' := by
      simpa using h.symm
    subst this
    decide
  · rw [hy] at h
    rw [List.getLast?_append] at h
    rw [hs] at h
    have h2 : (d :: rest).getLast? = some c := by
      rcases hlast : (d :: rest).getLast? with _ | e
      · exact absurd hlast (by simp)
      · rw [hlast] at h
        simpa using h
    exact sanitizeStage_getLast (hs ▸ h2)
  · rw [hy] at h
    exact sanitizeStage_getLast h

/-! ### Idempotence assembly -/

theorem underscoreNonWord_eq_self {l : List Char}
    (h : ∀ c ∈ l, IsLowerWordChar c) : underscoreNonWord l = l := by
  rw [underscoreNonWord]
  apply mapIdOn
  intro c hc
  rw [if_pos (isLowerWordChar_isWordChar (h c hc))]

theorem lowerAll_eq_self {l : List Char}
    (h : ∀ c ∈ l, IsLowerWordChar c) : lowerAll l = l := by
  rw [lowerAll]
  apply mapIdOn
  intro c hc
  exact isLowerWordChar_toLower_eq_self (h c hc)

theorem sanitizeStage_eq_self {l : List Char}
    (hmem : ∀ c ∈ l, IsLowerWordChar c)
    (htriple : hasTriple l = false)
    (hhead : ∀ c, l.head? = some c → c ≠ '_')
    (hlast : ∀ c, l.getLast? = some c → c ≠ '_') :
    sanitizeStage l = l := by
  rw [sanitizeStage, underscoreNonWord_eq_self hmem, lowerAll_eq_self hmem,
    collapseUnderscores_eq_self htriple, stripU_eq_self hhead hlast]

/-- C7: the table-name sanitizer is idempotent, and its output never
contains three consecutive underscores — every run of three or more
underscores has been collapsed to two. -/
theorem spec_C7_sanitize_idempotent (x : List Char) :
    sanitize_table_name (sanitize_table_name x) = sanitize_table_name x ∧
    hasTriple (sanitize_table_name x) = false := by
  refine ⟨?_, sanitize_hasTriple x⟩
  have hstage : sanitizeStage (sanitize_table_name x) = sanitize_table_name x :=
    sanitizeStage_eq_self (fun c hc => sanitize_mem hc) (sanitize_hasTriple x)
      (fun c hc => (sanitize_head hc).2) (fun c hc => sanitize_getLast hc)
  rcases hy : sanitize_table_name x with _ | ⟨c, rest⟩
  · exact absurd hy (sanitize_ne_nil x)
  · have hhead : (sanitize_table_name x).head? = some c := by
      rw [hy]
      rfl
    have hdigit : ¬ IsDigitChar c := (sanitize_head hhead).1
    rw [hy] at hstage
    simp [sanitize_table_name, hstage, hdigit]
